import Mathlib

/-
  Verification development for the sales-dashboard data pipeline
  (source: perdaymob.py).  The pure data-access and aggregation core is
  embedded shallowly: pandas DataFrames become lists of records, column
  values become fields (Option-valued where the source column may hold
  NaN after coercion), and the Streamlit widget inputs become explicit
  function arguments.  Quantities and currency values are modelled as
  rationals; dates as calendar triples compared through a day-number
  embedding (the source compares `datetime.date` values).
-/

namespace LiveDashboard

/-- A calendar date as parsed from the `InvDate` column. -/
structure Date where
  year : Nat
  month : Nat
  day : Nat
deriving DecidableEq

/-- Gregorian leap-year rule, as used by the datetime library backing
`pd.to_datetime`. -/
def isLeap (y : Nat) : Bool :=
  (y % 4 == 0 && y % 100 != 0) || y % 400 == 0

/-- Number of days in a month. -/
def daysInMonth (y m : Nat) : Nat :=
  if m = 2 then (if isLeap y then 29 else 28)
  else if m = 4 ∨ m = 6 ∨ m = 9 ∨ m = 11 then 30
  else 31

/-- Validity of a year/month/day triple as a calendar date. -/
def validYMD (y m d : Nat) : Bool :=
  decide (1 ≤ y) && decide (1 ≤ m) && decide (m ≤ 12) &&
  decide (1 ≤ d) && decide (d ≤ daysInMonth y m)

/-- Validity of a `Date`. -/
def Date.valid (dt : Date) : Bool := validYMD dt.year dt.month dt.day

/-- Split a character list at every occurrence of `c` (the semantics of
`str.split` on a one-character separator). -/
def splitCharList (c : Char) : List Char → List (List Char)
  | [] => [[]]
  | a :: as =>
    match splitCharList c as with
    | [] => if a == c then [[], []] else [[a]]
    | h :: t => if a == c then [] :: h :: t else (a :: h) :: t

/-- Read a non-empty all-digit character list as a number. -/
def natFromChars (cs : List Char) : Option Nat :=
  if cs.isEmpty || !(cs.all (fun c => c.isDigit)) then none
  else some (cs.foldl (fun acc c => 10 * acc + (c.toNat - 48)) 0)

/-- Parse one `InvDate` cell with the fixed format of
`pd.to_datetime(df[InvDate], format=%Y-%m-%d, errors=coerce)`
(perdaymob.py line 158): a four-digit year, one- or two-digit month and
day separated by dashes, all range-checked against the calendar; any
failure coerces the row's date to NaT (here: `none`). -/
def parseDate (s : String) : Option Date :=
  match splitCharList ('-') s.data with
  | [ys, ms, ds] =>
    match natFromChars ys, natFromChars ms, natFromChars ds with
    | some y, some m, some d =>
        if ys.length == 4 && decide (ms.length ≤ 2) && decide (ds.length ≤ 2)
            && validYMD y m d then
          some ⟨y, m, d⟩
        else none
    | _, _, _ => none
  | _ => none

/-- Days elapsed before month `m` in year `y`. -/
def daysBefore (y m : Nat) : Nat :=
  (List.range (m - 1)).foldl (fun acc i => acc + daysInMonth y (i + 1)) 0

/-- Day-number embedding of a date, used to model comparison and
`timedelta` arithmetic on `datetime.date` values. -/
def Date.toDays (dt : Date) : Nat :=
  let p := dt.year - 1
  365 * p + p / 4 - p / 100 + p / 400 + daysBefore dt.year dt.month + dt.day

/-- One raw row of the parquet file, before normalization.  The invoice
date is the raw string cell; the numeric columns are shown after the
`to_numeric` coercion of perdaymob.py lines 161-164 (`none` = NaN), whose
string-to-number details no claim depends on; the categorical columns
may be missing (`none` = NaN). -/
structure RawRow where
  invDate : String
  invNum : Option String
  qty : Option ℚ
  lineTotal : Option ℚ
  rgm : Option String
  dsm : Option String
  asm : Option String
  so : Option String
  prodCtg : Option String
  updCtg : Option String
  bpName : Option String
  custCls : Option String
  jc : Option String
  bpCode : Option String
deriving DecidableEq

/-- One normalized transaction record.  Fields in the `key_cols` repair
list of perdaymob.py line 166 are total strings (NaN replaced by
"Unknown"); `BP Code` and `InvNum` are not in that list and stay
optional. -/
structure Record where
  invDate : Date
  invNum : Option String
  qty : Option ℚ
  lineTotal : Option ℚ
  rgm : String
  dsm : String
  asm : String
  so : String
  prodCtg : String
  updCtg : String
  bpName : String
  custCls : String
  jc : String
  bpCode : Option String
deriving DecidableEq

/-- The list of columns whose missing values are repaired to "Unknown"
(perdaymob.py lines 166-167). -/
def keyCols : List String :=
  ["ASM", "RGM", "DSM", "SO", "ProductCategory", "BP Name", "CustomerClass",
   "DocumentType", "WhsCode", "CustType", "Brand", "ProductGroup",
   "upd_prod_ctg", "JCPeriodNum"]

/-- Normalization of one row (perdaymob.py lines 158-170): the row
survives iff its invoice date parses; categorical columns in `keyCols`
are defaulted to "Unknown"; `BP Code` and `InvNum` are left as they
are. -/
def normalizeRow (w : RawRow) : Option Record :=
  match parseDate w.invDate with
  | none => none
  | some dt =>
      some { invDate := dt
             invNum := w.invNum
             qty := w.qty
             lineTotal := w.lineTotal
             rgm := w.rgm.getD ("Unknown")
             dsm := w.dsm.getD ("Unknown")
             asm := w.asm.getD ("Unknown")
             so := w.so.getD ("Unknown")
             prodCtg := w.prodCtg.getD ("Unknown")
             updCtg := w.updCtg.getD ("Unknown")
             bpName := w.bpName.getD ("Unknown")
             custCls := w.custCls.getD ("Unknown")
             jc := w.jc.getD ("Unknown")
             bpCode := w.bpCode }

/-- Normalization of the whole table: `dropna(subset=[InvDate])` keeps
exactly the rows whose date parsed. -/
def normalizeRows (ws : List RawRow) : List Record :=
  ws.filterMap normalizeRow

/-- The downloaded table: whether the `InvDate` column exists, plus its
rows. -/
structure RawTable where
  hasInvDate : Bool
  rows : List RawRow
deriving DecidableEq

/-- The pure tail of `load_main_data_from_ftp` (perdaymob.py lines
155-172), after the bytes have been fetched: the schema check on
`InvDate` is the only fatal condition; date normalization silently drops
unparseable rows. -/
def load_main_data_from_ftp (t : RawTable) : Except String (List Record) :=
  if t.hasInvDate = false then
    Except.error ("Data Error: The column InvDate was not found.")
  else
    Except.ok (normalizeRows t.rows)

/-- The shape of an account's `filter_value`: absent (admin accounts),
a single name (legacy scalar), or a list of names. -/
inductive ScopeValue where
  | scNone : ScopeValue
  | scalar (s : String) : ScopeValue
  | set (l : List String) : ScopeValue
deriving DecidableEq

/-- Equality test of a column cell against a scope value, modelling
`df[col] == user_filter_value` for the scalar roles.  A `None`
comparison in pandas is all-False; the list shape is not producible for
these roles by the user-management UI and likewise matches nothing. -/
def scalarEq (v : ScopeValue) (x : String) : Bool :=
  match v with
  | ScopeValue.scalar s => x == s
  | _ => false

/-- Membership test of a column cell in a scope value, modelling
`df[col].isin(user_filter_value)` for the set roles. -/
def memEq (v : ScopeValue) (x : String) : Bool :=
  match v with
  | ScopeValue.set l => l.contains x
  | _ => false

/-- Access-scope restriction (perdaymob.py lines 357-363): DSM/ASM
scalar scopes are first normalized to a singleton list; RGM/SO filter by
equality, DSM/ASM by membership, any other role leaves the data
unchanged. -/
def scopeFilter (role : String) (v : ScopeValue) (df : List Record) : List Record :=
  let v := if role == "DSM" || role == "ASM" then
      (match v with
       | ScopeValue.scalar s => ScopeValue.set [s]
       | w => w)
    else v
  if role == "RGM" then df.filter (fun r => scalarEq v r.rgm)
  else if role == "DSM" then df.filter (fun r => memEq v r.dsm)
  else if role == "ASM" then df.filter (fun r => memEq v r.asm)
  else if role == "SO" then df.filter (fun r => scalarEq v r.so)
  else df

/-- The multiselect choices made in the sidebar, one list per cascading
filter level; `[]` models an untouched widget. -/
structure Selections where
  rgm : List String
  dsm : List String
  asm : List String
  cc : List String
  so : List String
  jc : List String
deriving DecidableEq

/-- One cascading filter step: `if selected := st.sidebar.multiselect(...):`
followed by `.isin(selected)` — an empty selection (falsy in Python)
skips the filter entirely. -/
def stepFilter (sel : List String) (f : Record → String) (df : List Record) : List Record :=
  if sel.isEmpty then df else df.filter (fun r => sel.contains (f r))

/-- A filter step that is only rendered for certain roles (`g` is the
role-gate condition of the surrounding `if user_role in [...]`). -/
def gatedStep (g : Bool) (sel : List String) (f : Record → String) (df : List Record) : List Record :=
  if g then stepFilter sel f df else df

/-- Roles offered the RGM filter (perdaymob.py line 373). -/
def isTopRole (role : String) : Bool :=
  role == "SUPER_ADMIN" || role == "ADMIN"

/-- Roles offered the DSM and ASM filters (perdaymob.py lines 376, 379). -/
def isMidRole (role : String) : Bool :=
  isTopRole role || role == "RGM" || role == "DSM"

/-- Roles offered the CustomerClass filter (perdaymob.py line 382). -/
def isCcRole (role : String) : Bool :=
  isMidRole role || role == "ASM"

/-- Cascade stage 1: the RGM filter. -/
def cas1 (role : String) (sels : Selections) (df : List Record) : List Record :=
  gatedStep (isTopRole role) sels.rgm (fun r => r.rgm) df

/-- Cascade stage 2: the DSM filter. -/
def cas2 (role : String) (sels : Selections) (df : List Record) : List Record :=
  gatedStep (isMidRole role) sels.dsm (fun r => r.dsm) (cas1 role sels df)

/-- Cascade stage 3: the ASM filter. -/
def cas3 (role : String) (sels : Selections) (df : List Record) : List Record :=
  gatedStep (isMidRole role) sels.asm (fun r => r.asm) (cas2 role sels df)

/-- Cascade stage 4: the CustomerClass filter. -/
def cas4 (role : String) (sels : Selections) (df : List Record) : List Record :=
  gatedStep (isCcRole role) sels.cc (fun r => r.custCls) (cas3 role sels df)

/-- Cascade stage 5: the SO filter, offered to every role. -/
def cas5 (role : String) (sels : Selections) (df : List Record) : List Record :=
  stepFilter sels.so (fun r => r.so) (cas4 role sels df)

/-- The full cascading filter block (perdaymob.py lines 373-391),
ending with the JC-period filter (the `JCPeriodNum` column is always
present in the record model). -/
def applyCascade (role : String) (sels : Selections) (df : List Record) : List Record :=
  stepFilter sels.jc (fun r => r.jc) (cas5 role sels df)

/-- Inclusive date-range restriction (perdaymob.py lines 407-410). -/
def dateRestrict (sd ed : Nat) (df : List Record) : List Record :=
  df.filter (fun r => decide (sd ≤ r.invDate.toDays) && decide (r.invDate.toDays ≤ ed))

/-- Null-aware sum of the quantity column: pandas `.sum()` skips NaN. -/
def qsum (df : List Record) : ℚ :=
  (df.filterMap (fun r => r.qty)).sum

/-- Null-aware sum of the line-value column. -/
def vsum (df : List Record) : ℚ :=
  (df.filterMap (fun r => r.lineTotal)).sum

/-- The header summary metrics (perdaymob.py lines 422-426).  `nunique`
on the possibly-null `InvNum` column skips NaN. -/
structure Summary where
  totalVolume : ℚ
  totalValue : ℚ
  invoicesBilled : Nat
  distributorsBilled : Nat
  uniqueProdCtg : Nat
deriving DecidableEq

/-- Compute the summary metrics over the date-filtered data. -/
def summaryMetrics (df : List Record) : Summary :=
  { totalVolume := qsum df / 1000
    totalValue := vsum df
    invoicesBilled := ((df.filterMap (fun r => r.invNum)).dedup).length
    distributorsBilled := ((df.map (fun r => r.bpName)).dedup).length
    uniqueProdCtg := ((df.map (fun r => r.prodCtg)).dedup).length }

/-- The three comparative volume figures of the Volume Comparison block. -/
structure CompMetrics where
  endVol : ℚ
  prevVol : ℚ
  past7Vol : ℚ
deriving DecidableEq

/-- Volume (in tonnes) on exactly day `n`. -/
def volOn (df : List Record) (n : Nat) : ℚ :=
  qsum (df.filter (fun r => r.invDate.toDays == n)) / 1000

/-- The Volume Comparison block (perdaymob.py lines 436-445), computed
over `df_hierarchical_filtered` and anchored at the displayed end date. -/
def compMetrics (df : List Record) (anchor : Nat) : CompMetrics :=
  { endVol := volOn df anchor
    prevVol := volOn df (anchor - 1)
    past7Vol := qsum (df.filter (fun r =>
        decide (anchor - 6 ≤ r.invDate.toDays) && decide (r.invDate.toDays ≤ anchor))) / 1000 }

/-- Latest invoice day in a dataset (`df[InvDate].max()`, line 394);
defaults to 0 on the empty list, which the dashboard never reaches. -/
def maxDays (df : List Record) : Nat :=
  (df.map (fun r => r.invDate.toDays)).foldr max 0

/-- What the dashboard body does after the scope and filter stages:
returns without aggregating (with a no-data warning) or renders the
report. -/
inductive Outcome where
  | accessEmpty : Outcome
  | selectionEmpty : Outcome
  | report (smry : Summary) (cmp : CompMetrics) : Outcome
deriving DecidableEq

/-- The dashboard pipeline of `main_dashboard_ui` (perdaymob.py lines
354-450): scope restriction, empty-access check, cascading filters, the
min/max computation of line 394 (which faults on an empty frame — the
`none` result), the optional date restriction, the empty-selection
check, and finally the summary and comparative metrics.  `fbd` is the
Filter-by-Date checkbox; `sd`/`ed` the selected range as day numbers. -/
def dashboard (df0 : List Record) (role : String) (v : ScopeValue)
    (sels : Selections) (fbd : Bool) (sd ed : Nat) : Option Outcome :=
  let df := scopeFilter role v df0
  if df.isEmpty then some Outcome.accessEmpty
  else
    let dfh := applyCascade role sels df
    if dfh.isEmpty then none
    else
      let dispEnd := if fbd then ed else maxDays dfh
      let dff := if fbd then dateRestrict sd ed dfh else dfh
      if dff.isEmpty then some Outcome.selectionEmpty
      else some (Outcome.report (summaryMetrics dff) (compMetrics dfh dispEnd))

/-- One credential entry, the value of `credentials.usernames[u]`. -/
structure UserRec where
  email : String
  name : String
  password : String
  role : String
  filterValue : ScopeValue
deriving DecidableEq

/-- The credential store, keyed by username.  The JSON dict is modelled
as an association list in insertion order. -/
def Store := List (String × UserRec)

/-- Result of an Add-User form submission: the store afterwards, whether
it was persisted to the FTP server, and the error shown, if any. -/
structure AddResult where
  store : List (String × UserRec)
  saved : Bool
  errMsg : Option String
deriving DecidableEq

/-- ASCII lower-casing of one character, the fragment of `str.lower`
relevant to usernames. -/
def charLower (c : Char) : Char :=
  if decide (65 ≤ c.toNat) && decide (c.toNat ≤ 90) then Char.ofNat (c.toNat + 32) else c

/-- `str.lower` over a whole string (ASCII model). -/
def pyLower (s : String) : String := String.mk (s.data.map charLower)

/-- The Add-User branch of `user_management_ui` (perdaymob.py lines
196-231).  The typed username is lower-cased at capture (line 198); a
blank field aborts, an existing username aborts, otherwise the entry is
inserted and the store persisted.  The salted bcrypt hash is an external
collaborator and is passed in as `hashFn`. -/
def addUser (hashFn : String → String) (store : List (String × UserRec))
    (rawUsername name password role : String) (fv : ScopeValue) : AddResult :=
  if pyLower rawUsername == "" || name == "" || password == "" || role == "" then
    { store := store, saved := false
      errMsg := some ("Please fill all fields for the new user.") }
  else if (store.map Prod.fst).contains (pyLower rawUsername) then
    { store := store, saved := false
      errMsg := some ("Username already exists. Please choose a different one.") }
  else
    { store := store ++ [(pyLower rawUsername,
        { email := pyLower rawUsername ++ "@example.com"
          name := name
          password := hashFn password
          role := role
          filterValue := fv })]
      saved := true
      errMsg := none }

/-- Lexicographic comparison of character lists by code point: the `≤`
of the string order used when pandas sorts group keys. -/
def listLe : List Char → List Char → Bool
  | [], _ => true
  | _ :: _, [] => false
  | a :: as, b :: bs => if a == b then listLe as bs else decide (a.toNat < b.toNat)

/-- String `≤` by code points. -/
def strLe (a b : String) : Bool := listLe a.data b.data

/-- Lexicographic `≤` on string pairs, for the two-column group keys. -/
def pairLe (a b : String × String) : Bool :=
  if a.1 == b.1 then strLe a.2 b.2 else strLe a.1 b.1

/-- Stable insertion of `x` into `l`: `x` goes before the first element
it compares `le` to, so equal keys keep their relative order. -/
def insertBy (le : α → α → Bool) (x : α) : List α → List α
  | [] => [x]
  | y :: ys => if le x y then x :: y :: ys else y :: insertBy le x ys

/-- Stable insertion sort, the deterministic sort semantics used for
both the groupby key ordering and `sort_values` (on the small grouped
tables, the library sort coincides with the stable order). -/
def isortBy (le : α → α → Bool) : List α → List α
  | [] => []
  | x :: xs => insertBy le x (isortBy le xs)

/-- One row of a grouped performance table with key type `K`:
`Total_Value`, `Total_Tonnes`, and the table's distinct-count column. -/
structure GRow (K : Type) where
  key : K
  totalValue : ℚ
  totalTonnes : ℚ
  distinctCt : Nat
deriving DecidableEq

/-- Aggregate one group: sum of value, sum of quantity over 1000, and
the table-specific distinct count. -/
def aggFor [DecidableEq K] (key : Record → K) (third : List Record → Nat)
    (rows : List Record) (k : K) : GRow K :=
  let g := rows.filter (fun r => decide (key r = k))
  { key := k, totalValue := vsum g, totalTonnes := qsum g / 1000, distinctCt := third g }

/-- `df.groupby(...).agg(...).reset_index()`: one aggregated row per
distinct key, with the keys in ascending sorted order (pandas groupby
sorts group keys by default). -/
def groupAgg [DecidableEq K] (le : K → K → Bool) (key : Record → K)
    (third : List Record → Nat) (rows : List Record) : List (GRow K) :=
  (isortBy le ((rows.map key).dedup)).map (aggFor key third rows)

/-- `.sort_values(Total_Tonnes, ascending=False)` over a grouped table.
The library's default sort (introsort) is not stable, so the program
fixes no order among rows of equal tonnage; this executable model is one
concrete compliant implementation (an insertion sort).  Theorems about
the rendered tables therefore assert only the properties every
compliant implementation shares — descending tonnage order and being a
permutation of the grouped rows — never this model's particular tie
order. -/
def sortTable (t : List (GRow K)) : List (GRow K) :=
  isortBy (fun a b => decide (b.totalTonnes ≤ a.totalTonnes)) t

/-- Count of distinct values of a total string column. -/
def nuniqueS (f : Record → String) (g : List Record) : Nat :=
  ((g.map f).dedup).length

/-- Count of distinct values of an optional string column (`nunique`
skips NaN). -/
def nuniqueO (f : Record → Option String) (g : List Record) : Nat :=
  ((g.filterMap f).dedup).length

/-- The Product-Wise table (perdaymob.py line 481): grouped by
ProductCategory and upd_prod_ctg, third column distinct BP Names. -/
def productWise (rows : List Record) : List (GRow (String × String)) :=
  sortTable (groupAgg pairLe (fun r => (r.prodCtg, r.updCtg)) (nuniqueS (fun r => r.bpName)) rows)

/-- The Distributor-Wise table (perdaymob.py line 504): grouped by BP
Code and BP Name.  `BP Code` can be NaN after normalization, and pandas
groupby silently drops rows with a null key, so the grouping runs over
the `isSome` rows only. -/
def distributorWise (rows : List Record) : List (GRow (String × String)) :=
  sortTable (groupAgg pairLe (fun r => (r.bpCode.getD (""), r.bpName))
    (nuniqueS (fun r => r.prodCtg)) (rows.filter (fun r => r.bpCode.isSome)))

/-- The DSM-Wise table (perdaymob.py line 527). -/
def dsmWise (rows : List Record) : List (GRow String) :=
  sortTable (groupAgg strLe (fun r => r.dsm) (nuniqueO (fun r => r.bpCode)) rows)

/-- The ASM-Wise table (perdaymob.py line 550). -/
def asmWise (rows : List Record) : List (GRow String) :=
  sortTable (groupAgg strLe (fun r => r.asm) (nuniqueO (fun r => r.bpCode)) rows)

/-- The SO-Wise table (perdaymob.py line 573), grouped by SO and ASM. -/
def soWise (rows : List Record) : List (GRow (String × String)) :=
  sortTable (groupAgg pairLe (fun r => (r.so, r.asm)) (nuniqueO (fun r => r.bpCode)) rows)

/-- Projection of the dashboard outcome onto the comparative-metrics
block, for stating what the Volume Comparison figures are computed
from. -/
def cmpProj : Option Outcome → Option CompMetrics
  | some (Outcome.report _ c) => some c
  | _ => none

/-- Whether one multiselect selection is the kind the widget can return:
untouched, or containing at least one value present in the data it was
drawn from. -/
def okSel (sel : List String) (f : Record → String) (df : List Record) : Bool :=
  sel.isEmpty || df.any (fun r => sel.contains (f r))

/-- Whether every cascade selection is one its (stage-wise) multiselect
widget could have returned: each stage's options are drawn from the
dataset as filtered by the preceding stages. -/
def validSels (role : String) (sels : Selections) (df : List Record) : Bool :=
  okSel sels.rgm (fun r => r.rgm) df &&
  okSel sels.dsm (fun r => r.dsm) (cas1 role sels df) &&
  okSel sels.asm (fun r => r.asm) (cas2 role sels df) &&
  okSel sels.cc (fun r => r.custCls) (cas3 role sels df) &&
  okSel sels.so (fun r => r.so) (cas4 role sels df) &&
  okSel sels.jc (fun r => r.jc) (cas5 role sels df)

/- Concrete data used by counterexamples and witnesses. -/

/-- An example invoice date, 2024-01-10. -/
def dateA : Date := ⟨2024, 1, 10⟩

/-- A fully-populated example record. -/
def baseRec : Record :=
  { invDate := dateA, invNum := some ("I1"), qty := some 1000,
    lineTotal := some 1000, rgm := "R1", dsm := "D3", asm := "A1",
    so := "S1", prodCtg := "P1", updCtg := "P1", bpName := "BPN1",
    custCls := "GT", jc := "J1", bpCode := some ("BC1") }

/-- A second record on the same day, attributed to sales officer S2. -/
def recS2 : Record := { baseRec with so := "S2", invNum := some ("I2") }

/-- Two same-day records under different sales officers. -/
def dfC2 : List Record := [baseRec, recS2]

/-- The all-untouched sidebar. -/
def selsNone : Selections := ⟨[], [], [], [], [], []⟩

/-- A sidebar where only the SO filter is used, selecting S1. -/
def selsSO1 : Selections := { selsNone with so := ["S1"] }

/-- The hierarchically-filtered dataset an ADMIN viewing `dfC2` with
`selsSO1` gets. -/
def dfhC2 : List Record :=
  applyCascade ("ADMIN") selsSO1 (scopeFilter ("ADMIN") ScopeValue.scNone dfC2)

/-- A record in DSM district B. -/
def recTieB : Record := { baseRec with dsm := "B" }

/-- A record in DSM district A, appearing after B in the data. -/
def recTieA : Record := { baseRec with dsm := "A" }

/-- Two equal-tonnage districts, B first in insertion order. -/
def dfTie : List Record := [recTieB, recTieA]

/-- The aggregated district-A row of the DSM-wise table over `dfTie`. -/
def gTieA : GRow String :=
  aggFor (fun r => r.dsm) (nuniqueO (fun r => r.bpCode)) dfTie ("A")

/-- The aggregated district-B row of the DSM-wise table over `dfTie`. -/
def gTieB : GRow String :=
  aggFor (fun r => r.dsm) (nuniqueO (fun r => r.bpCode)) dfTie ("B")

/-- A record with a null BP Code surviving normalization. -/
def recNoCode : Record :=
  { baseRec with
    bpCode := none
    lineTotal := some 500
    bpName := "BPN2"
    invNum := some ("I3") }

/-- A dataset where one record has a null BP Code. -/
def dfC10 : List Record := [baseRec, recNoCode]

/-- A raw row whose date parses. -/
def rawGood : RawRow :=
  { invDate := "2024-01-10", invNum := none, qty := none, lineTotal := none,
    rgm := none, dsm := none, asm := none, so := none, prodCtg := none,
    updCtg := none, bpName := none, custCls := none, jc := none,
    bpCode := none }

/-- A raw row whose date fails the fixed format. -/
def rawBad : RawRow := { rawGood with invDate := "not-a-date" }

/-- The record `rawGood` normalizes to. -/
def recGood : Record :=
  { invDate := dateA, invNum := none, qty := none, lineTotal := none,
    rgm := "Unknown", dsm := "Unknown", asm := "Unknown", so := "Unknown",
    prodCtg := "Unknown", updCtg := "Unknown", bpName := "Unknown",
    custCls := "Unknown", jc := "Unknown", bpCode := none }

/-- A table whose every row has an unparseable date. -/
def tblBad : RawTable := ⟨true, [rawBad]⟩

/-- An existing credential entry. -/
def userA : UserRec :=
  { email := "bob@example.com", name := "Bob B", password := "h1",
    role := "RGM", filterValue := ScopeValue.scalar ("R1") }

/-- A credential store already containing username bob. -/
def storeW : List (String × UserRec) := [("bob", userA)]

/- Theorems. -/

/-- C1: Scope filtering leaves the data unchanged for SUPER_ADMIN and
ADMIN; filters by field equality with the scalar scope for RGM and SO;
filters by membership of the respective field in the scope set for DSM
and ASM; and for DSM/ASM a scalar scope is normalized to a singleton
set, so a legacy scalar scope and the singleton set with the same name
give identical results. -/
theorem c1_scope_filter (df : List Record) :
    (∀ v, scopeFilter ("SUPER_ADMIN") v df = df) ∧
    (∀ v, scopeFilter ("ADMIN") v df = df) ∧
    (∀ s, scopeFilter ("RGM") (ScopeValue.scalar s) df
        = df.filter (fun r => r.rgm == s)) ∧
    (∀ s, scopeFilter ("SO") (ScopeValue.scalar s) df
        = df.filter (fun r => r.so == s)) ∧
    (∀ l, scopeFilter ("DSM") (ScopeValue.set l) df
        = df.filter (fun r => l.contains r.dsm)) ∧
    (∀ l, scopeFilter ("ASM") (ScopeValue.set l) df
        = df.filter (fun r => l.contains r.asm)) ∧
    (∀ s, scopeFilter ("DSM") (ScopeValue.scalar s) df
        = df.filter (fun r => r.dsm == s)) ∧
    (∀ s, scopeFilter ("DSM") (ScopeValue.scalar s) df
        = scopeFilter ("DSM") (ScopeValue.set [s]) df) ∧
    (∀ s, scopeFilter ("ASM") (ScopeValue.scalar s) df
        = scopeFilter ("ASM") (ScopeValue.set [s]) df) := by
  refine ⟨fun v => rfl, fun v => rfl, fun s => rfl, fun s => rfl,
    fun l => rfl, fun l => rfl, fun s => ?_, fun s => rfl, fun s => rfl⟩
  show df.filter (fun r => memEq (ScopeValue.set [s]) r.dsm)
      = df.filter (fun r => r.dsm == s)
  refine List.filter_congr (fun r _ => ?_)
  show memEq (ScopeValue.set [s]) r.dsm = (r.dsm == s)
  cases hbe : r.dsm == s <;>
    simp [memEq, List.contains, List.elem, hbe]

/-- An empty cascading selection skips its filter. -/
theorem stepFilter_nil (f : Record → String) (df : List Record) :
    stepFilter [] f df = df := rfl

/-- A role-gated step with an empty selection is a no-op whichever way
the gate goes. -/
theorem gatedStep_nil (g : Bool) (f : Record → String) (df : List Record) :
    gatedStep g [] f df = df := by
  cases g <;> rfl

/-- C4: Every cascading filter step is a strict no-op on an empty
selection — filtering any record set with `[]` returns it unchanged, at
every level (RGM, DSM, ASM, CustomerClass, SO, JC) and for every role
gate, so an absent selection never empties the result. -/
theorem c4_empty_selection_noop :
    (∀ (f : Record → String) (df : List Record), stepFilter [] f df = df) ∧
    (∀ (g : Bool) (f : Record → String) (df : List Record),
      gatedStep g [] f df = df) ∧
    (∀ (role : String) (df : List Record),
      applyCascade role selsNone df = df) := by
  refine ⟨stepFilter_nil, gatedStep_nil, fun role df => ?_⟩
  simp [applyCascade, cas5, cas4, cas3, cas2, cas1, selsNone,
    gatedStep_nil, stepFilter_nil]

/-- C8: Submitting the Add-User form with a username whose lower-cased
form already exists leaves the credential store untouched, persists
nothing to the FTP server, and reports an error. -/
theorem c8_duplicate_username (hashFn : String → String)
    (store : List (String × UserRec))
    (u name password role : String) (fv : ScopeValue)
    (h : (store.map Prod.fst).contains (pyLower u) = true) :
    (addUser hashFn store u name password role fv).store = store ∧
    (addUser hashFn store u name password role fv).saved = false ∧
    (addUser hashFn store u name password role fv).errMsg.isSome = true := by
  unfold addUser
  by_cases h1 : (pyLower u == "" || name == "" || password == "" || role == "") = true
  · rw [if_pos h1]
    exact ⟨rfl, rfl, rfl⟩
  · rw [if_neg h1, if_pos h]
    exact ⟨rfl, rfl, rfl⟩

/-- C8 witness: adding the username Bob to a store already holding bob
changes nothing and saves nothing. -/
theorem c8_duplicate_username_witness :
    ((storeW.map Prod.fst).contains (pyLower ("Bob")) = true) ∧
    (addUser (fun p => p) storeW ("Bob") ("Bobby") ("pw1") ("RGM")
        (ScopeValue.scalar ("R1"))).store = storeW ∧
    (addUser (fun p => p) storeW ("Bob") ("Bobby") ("pw1") ("RGM")
        (ScopeValue.scalar ("R1"))).saved = false := by
  refine ⟨by decide, ?_, ?_⟩
  · exact (c8_duplicate_username (fun p => p) storeW ("Bob") ("Bobby")
      ("pw1") ("RGM") (ScopeValue.scalar ("R1")) (by decide)).1
  · exact (c8_duplicate_username (fun p => p) storeW ("Bob") ("Bobby")
      ("pw1") ("RGM") (ScopeValue.scalar ("R1")) (by decide)).2.1

/-- The date parser only ever returns calendar-valid dates: the range
checks guard the `some` branch. -/
theorem parseDate_valid {s : String} {dt : Date} (h : parseDate s = some dt) :
    dt.valid = true := by
  unfold parseDate at h
  split at h
  case h_2 => exact absurd h (by simp)
  case h_1 ys ms ds heq =>
    split at h
    case h_2 => exact absurd h (by simp)
    case h_1 y m d hy hm hd =>
      split at h
      case isFalse => exact absurd h (by simp)
      case isTrue hcond =>
        have hdt : dt = ⟨y, m, d⟩ := (Option.some.injEq _ _).mp h.symm
        subst hdt
        simp only [Bool.and_eq_true] at hcond
        exact hcond.2

/-- A raw row survives normalization exactly when its date parses. -/
theorem normalizeRow_isSome (w : RawRow) :
    (normalizeRow w).isSome = (parseDate w.invDate).isSome := by
  unfold normalizeRow
  cases parseDate w.invDate <;> rfl

/-- Length of a `filterMap` as a count of the surviving elements. -/
theorem length_filterMap_eq_length_filter (f : α → Option β) (l : List α) :
    (l.filterMap f).length = (l.filter (fun a => (f a).isSome)).length := by
  induction l with
  | nil => rfl
  | cons a l ih =>
    cases h : f a <;>
      simp [List.filterMap_cons, List.filter_cons, h, ih]

/-- C5: Rows whose invoice date fails the fixed parse format are
excluded from the normalized output entirely — the output has exactly
one record per parseable row — and every surviving record carries a
calendar-valid parsed date originating from some input row (no record is
retained with a null or sentinel date). -/
theorem c5_unparseable_dates_dropped (raws : List RawRow) :
    (normalizeRows raws).length
        = (raws.filter (fun w => (parseDate w.invDate).isSome)).length ∧
    ∀ r ∈ normalizeRows raws, r.invDate.valid = true ∧
      ∃ w ∈ raws, parseDate w.invDate = some r.invDate := by
  constructor
  · rw [normalizeRows, length_filterMap_eq_length_filter]
    exact congrArg List.length
      (List.filter_congr (fun w _ => normalizeRow_isSome w))
  · intro r hr
    rcases List.mem_filterMap.mp hr with ⟨w, hw, hnw⟩
    unfold normalizeRow at hnw
    revert hnw
    cases hpd : parseDate w.invDate with
    | none => intro hnw; exact absurd hnw (by simp)
    | some dt =>
      intro hnw
      have hr' : r.invDate = dt := by
        have := (Option.some.injEq _ _).mp hnw.symm
        rw [this]
      refine ⟨?_, ⟨w, hw, ?_⟩⟩
      · rw [hr']; exact parseDate_valid hpd
      · rw [hr']; exact hpd

/-- C5 witness: the row dated 2024-01-10 survives normalization with a
valid parsed date. -/
theorem c5_unparseable_dates_dropped_witness :
    recGood ∈ normalizeRows [rawGood, rawBad] ∧ recGood.invDate.valid = true := by
  refine ⟨by decide, ?_⟩
  exact ((c5_unparseable_dates_dropped [rawGood, rawBad]).2 recGood (by decide)).1

/-- C6 counterexample: a table whose single row (hence 100% of rows)
fails date parsing makes `load_main_data_from_ftp` return a successful
empty dataset, not an error — the claimed fatal data-integrity signal
does not exist in the code. -/
theorem c6_counterexample :
    load_main_data_from_ftp tblBad = Except.ok [] ∧ tblBad.rows.length = 1 := by
  exact ⟨rfl, rfl⟩

/-- The scope filter of an empty dataset is empty for every role. -/
theorem scopeFilter_nil (role : String) (v : ScopeValue) :
    scopeFilter role v [] = [] := by
  simp [scopeFilter]

/-- C6 amended: when every row fails invoice-date parsing (and the
`InvDate` column exists), the loader returns a successful empty dataset
with no error; the condition is only surfaced downstream, where the
dashboard shows its no-data-for-your-access warning on the empty
frame. -/
theorem c6_all_unparseable_silent_empty (t : RawTable)
    (hcol : t.hasInvDate = true)
    (hbad : ∀ w ∈ t.rows, parseDate w.invDate = none) :
    load_main_data_from_ftp t = Except.ok [] ∧
    ∀ (role : String) (v : ScopeValue) (sels : Selections) (fbd : Bool)
      (sd ed : Nat),
      dashboard [] role v sels fbd sd ed = some Outcome.accessEmpty := by
  constructor
  · unfold load_main_data_from_ftp
    rw [if_neg (by rw [hcol]; exact fun hf => Bool.noConfusion hf)]
    have hnil : normalizeRows t.rows = [] := by
      apply List.filterMap_eq_nil_iff.mpr
      intro w hw
      unfold normalizeRow
      rw [hbad w hw]
    rw [hnil]
  · intro role v sels fbd sd ed
    unfold dashboard
    rw [scopeFilter_nil]
    rfl

/-- C6 amended witness: on the concrete all-unparseable table the loader
answers `ok []`, and the dashboard over the empty dataset warns and
stops. -/
theorem c6_all_unparseable_silent_empty_witness :
    load_main_data_from_ftp tblBad = Except.ok [] ∧
    dashboard [] ("ADMIN") ScopeValue.scNone selsNone true 0 0
      = some Outcome.accessEmpty := by
  refine ⟨(c6_all_unparseable_silent_empty tblBad rfl (by decide)).1, ?_⟩
  exact (c6_all_unparseable_silent_empty tblBad rfl (by decide)).2
    ("ADMIN") ScopeValue.scNone selsNone true 0 0

/-- Whenever the dashboard renders the report, its Volume Comparison
block equals `compMetrics` of the cascaded (but not date-restricted)
dataset, anchored at the displayed end date. -/
theorem dashboard_report_cmp (df0 : List Record) (role : String)
    (v : ScopeValue) (sels : Selections) (fbd : Bool) (sd ed : Nat)
    (sm : Summary) (c : CompMetrics)
    (h : dashboard df0 role v sels fbd sd ed = some (Outcome.report sm c)) :
    c = compMetrics (applyCascade role sels (scopeFilter role v df0))
        (if fbd then ed
         else maxDays (applyCascade role sels (scopeFilter role v df0))) := by
  simp only [dashboard] at h
  by_cases hdf : (scopeFilter role v df0).isEmpty = true
  · rw [if_pos hdf] at h
    exact absurd h (by simp)
  · rw [if_neg hdf] at h
    by_cases hdfh : (applyCascade role sels (scopeFilter role v df0)).isEmpty = true
    · rw [if_pos hdfh] at h
      exact absurd h (by simp)
    · rw [if_neg hdfh] at h
      by_cases hdff : ((if fbd then dateRestrict sd ed (applyCascade role sels (scopeFilter role v df0))
          else applyCascade role sels (scopeFilter role v df0)).isEmpty = true)
      · rw [if_pos hdff] at h
        exact absurd h (by simp)
      · rw [if_neg hdff] at h
        simp only [Option.some.injEq, Outcome.report.injEq] at h
        exact h.2.symm

/-- C2 amended: the three comparative volume metrics are computed
against the dataset after the hierarchy scope restriction AND the
cascading sidebar filters (post §4.3 step 2), before the date-range
restriction — so they may include rows outside the selected window,
anchored only at its displayed end date. -/
theorem c2_comparative_post_cascade (df0 : List Record) (role : String)
    (v : ScopeValue) (sels : Selections) (fbd : Bool) (sd ed : Nat)
    (sm : Summary) (c : CompMetrics)
    (h : dashboard df0 role v sels fbd sd ed = some (Outcome.report sm c)) :
    c = compMetrics (applyCascade role sels (scopeFilter role v df0))
        (if fbd then ed
         else maxDays (applyCascade role sels (scopeFilter role v df0))) :=
  dashboard_report_cmp df0 role v sels fbd sd ed sm c h

/-- C2 witness: an ADMIN viewing `dfC2` with the SO filter set to S1
gets a report whose comparison block is `compMetrics` of the cascaded
dataset. -/
theorem c2_comparative_post_cascade_witness :
    dashboard dfC2 ("ADMIN") ScopeValue.scNone selsSO1 true
        (dateA.toDays) (dateA.toDays)
      = some (Outcome.report
          (summaryMetrics (dateRestrict (dateA.toDays) (dateA.toDays) dfhC2))
          (compMetrics dfhC2 (dateA.toDays))) ∧
    compMetrics dfhC2 (dateA.toDays)
      = compMetrics
          (applyCascade ("ADMIN") selsSO1 (scopeFilter ("ADMIN") ScopeValue.scNone dfC2))
          (if true then dateA.toDays
           else maxDays (applyCascade ("ADMIN") selsSO1
              (scopeFilter ("ADMIN") ScopeValue.scNone dfC2))) := by
  refine ⟨rfl, ?_⟩
  exact c2_comparative_post_cascade dfC2 ("ADMIN") ScopeValue.scNone selsSO1
    true (dateA.toDays) (dateA.toDays) _ _ rfl

/-- C2 counterexample: with a cascading SO filter active, the rendered
comparison block differs from `compMetrics` of the merely
scope-restricted (§4.3 step 1) dataset, refuting the claim that the
metrics are computed against the step-1 dataset. -/
theorem c2_step1_counterexample :
    cmpProj (dashboard dfC2 ("ADMIN") ScopeValue.scNone selsSO1 true
        (dateA.toDays) (dateA.toDays))
      ≠ some (compMetrics (scopeFilter ("ADMIN") ScopeValue.scNone dfC2)
          (dateA.toDays)) := by
  intro h
  have h1 : cmpProj (dashboard dfC2 ("ADMIN") ScopeValue.scNone selsSO1 true
      (dateA.toDays) (dateA.toDays)) = some (compMetrics dfhC2 (dateA.toDays)) := rfl
  rw [h1] at h
  have h3 := (Option.some.injEq _ _).mp h
  rw [show scopeFilter ("ADMIN") ScopeValue.scNone dfC2 = dfC2 from rfl] at h3
  have h4 := congrArg CompMetrics.endVol h3
  simp only [compMetrics, volOn] at h4
  rw [show dfhC2.filter (fun r => r.invDate.toDays == dateA.toDays) = [baseRec]
      from by decide] at h4
  rw [show dfC2.filter (fun r => r.invDate.toDays == dateA.toDays) = [baseRec, recS2]
      from by decide] at h4
  simp only [qsum, baseRec, recS2, List.filterMap, List.sum_cons, List.sum_nil] at h4
  norm_num at h4

/-- C3: the comparison block depends only on the end date: two renders
differing only in the start date of the selected range produce equal
comparative metrics. -/
theorem c3_comparative_start_independent (df0 : List Record) (role : String)
    (v : ScopeValue) (sels : Selections) (fbd : Bool) (s1 s2 e : Nat)
    (sm1 sm2 : Summary) (c1 c2 : CompMetrics)
    (h1 : dashboard df0 role v sels fbd s1 e = some (Outcome.report sm1 c1))
    (h2 : dashboard df0 role v sels fbd s2 e = some (Outcome.report sm2 c2)) :
    c1 = c2 := by
  rw [dashboard_report_cmp df0 role v sels fbd s1 e sm1 c1 h1,
    dashboard_report_cmp df0 role v sels fbd s2 e sm2 c2 h2]

/-- The hierarchically-filtered view of the single-record dataset. -/
def dfhW3 : List Record :=
  applyCascade ("ADMIN") selsNone (scopeFilter ("ADMIN") ScopeValue.scNone [baseRec])

/-- C3 witness: two renders over `[baseRec]` whose ranges share the end
date but have different start dates yield the same comparison block. -/
theorem c3_comparative_start_independent_witness :
    (dashboard [baseRec] ("ADMIN") ScopeValue.scNone selsNone true
        (dateA.toDays) (dateA.toDays)
      = some (Outcome.report
          (summaryMetrics (dateRestrict (dateA.toDays) (dateA.toDays) dfhW3))
          (compMetrics dfhW3 (dateA.toDays)))) ∧
    (dashboard [baseRec] ("ADMIN") ScopeValue.scNone selsNone true
        (dateA.toDays - 1) (dateA.toDays)
      = some (Outcome.report
          (summaryMetrics (dateRestrict (dateA.toDays - 1) (dateA.toDays) dfhW3))
          (compMetrics dfhW3 (dateA.toDays)))) ∧
    compMetrics dfhW3 (dateA.toDays) = compMetrics dfhW3 (dateA.toDays) := by
  refine ⟨rfl, rfl, ?_⟩
  exact c3_comparative_start_independent [baseRec] ("ADMIN") ScopeValue.scNone
    selsNone true (dateA.toDays) (dateA.toDays - 1) (dateA.toDays) _ _ _ _ rfl rfl

/-- A widget-shaped selection never empties a nonempty dataset at its
own filter step. -/
theorem stepFilter_ne_nil {sel : List String} {f : Record → String}
    {df : List Record} (h : okSel sel f df = true) (hd : df ≠ []) :
    stepFilter sel f df ≠ [] := by
  cases hse : sel.isEmpty with
  | true =>
    simp only [stepFilter]
    rw [if_pos hse]
    exact hd
  | false =>
    have h2 : df.any (fun r => sel.contains (f r)) = true := by
      rw [okSel, hse] at h
      simpa using h
    obtain ⟨r, hr, hc⟩ := List.any_eq_true.mp h2
    simp only [stepFilter]
    rw [if_neg (by rw [hse]; exact fun hh => Bool.noConfusion hh)]
    exact List.ne_nil_of_mem (List.mem_filter.mpr ⟨hr, hc⟩)

/-- Same, through a role gate. -/
theorem gatedStep_ne_nil (g : Bool) {sel : List String} {f : Record → String}
    {df : List Record} (h : okSel sel f df = true) (hd : df ≠ []) :
    gatedStep g sel f df ≠ [] := by
  cases g with
  | false => simpa [gatedStep] using hd
  | true => simpa [gatedStep] using stepFilter_ne_nil h hd

/-- A cascade made of widget-shaped selections never empties a nonempty
dataset. -/
theorem applyCascade_ne_nil {role : String} {sels : Selections}
    {df : List Record} (h : validSels role sels df = true) (hd : df ≠ []) :
    applyCascade role sels df ≠ [] := by
  unfold validSels at h
  simp only [Bool.and_eq_true] at h
  obtain ⟨⟨⟨⟨⟨h1, h2⟩, h3⟩, h4⟩, h5⟩, h6⟩ := h
  have n1 : cas1 role sels df ≠ [] := gatedStep_ne_nil _ h1 hd
  have n2 : cas2 role sels df ≠ [] := gatedStep_ne_nil _ h2 n1
  have n3 : cas3 role sels df ≠ [] := gatedStep_ne_nil _ h3 n2
  have n4 : cas4 role sels df ≠ [] := gatedStep_ne_nil _ h4 n3
  have n5 : cas5 role sels df ≠ [] := stepFilter_ne_nil h5 n4
  exact stepFilter_ne_nil h6 n5

/-- C9: an account whose scope matches nothing gets the explicit
no-data-for-your-access outcome (not an error); and with sidebar
selections of the shape the widgets can produce, the pipeline never
faults — an empty filtered result gives the no-data-for-selection
outcome and skips aggregation, while a nonempty one renders the
report. -/
theorem c9_no_data_outcomes :
    (∀ (df0 : List Record) (role : String) (v : ScopeValue)
        (sels : Selections) (fbd : Bool) (sd ed : Nat),
      scopeFilter role v df0 = [] →
      dashboard df0 role v sels fbd sd ed = some Outcome.accessEmpty) ∧
    (∀ (df0 : List Record) (role : String) (v : ScopeValue)
        (sels : Selections) (fbd : Bool) (sd ed : Nat),
      scopeFilter role v df0 ≠ [] →
      validSels role sels (scopeFilter role v df0) = true →
      dashboard df0 role v sels fbd sd ed ≠ none ∧
      ((if fbd then dateRestrict sd ed (applyCascade role sels (scopeFilter role v df0))
          else applyCascade role sels (scopeFilter role v df0)) = [] →
        dashboard df0 role v sels fbd sd ed = some Outcome.selectionEmpty) ∧
      ((if fbd then dateRestrict sd ed (applyCascade role sels (scopeFilter role v df0))
          else applyCascade role sels (scopeFilter role v df0)) ≠ [] →
        ∃ sm c, dashboard df0 role v sels fbd sd ed
          = some (Outcome.report sm c))) := by
  constructor
  · intro df0 role v sels fbd sd ed hempty
    simp only [dashboard]
    rw [hempty]
    rfl
  · intro df0 role v sels fbd sd ed hne hvalid
    have hdfh := applyCascade_ne_nil hvalid hne
    have hb1 : ¬ ((scopeFilter role v df0).isEmpty = true) :=
      fun hh => hne (List.isEmpty_iff.mp hh)
    have hb2 : ¬ ((applyCascade role sels (scopeFilter role v df0)).isEmpty = true) :=
      fun hh => hdfh (List.isEmpty_iff.mp hh)
    refine ⟨?_, ?_, ?_⟩
    · simp only [dashboard]
      rw [if_neg hb1, if_neg hb2]
      by_cases hdd : ((if fbd then dateRestrict sd ed (applyCascade role sels (scopeFilter role v df0))
          else applyCascade role sels (scopeFilter role v df0)).isEmpty = true)
      · rw [if_pos hdd]
        exact fun hh => Option.noConfusion hh
      · rw [if_neg hdd]
        exact fun hh => Option.noConfusion hh
    · intro hdff
      simp only [dashboard]
      rw [if_neg hb1, if_neg hb2, if_pos (by rw [List.isEmpty_iff]; exact hdff)]
    · intro hdff
      simp only [dashboard]
      rw [if_neg hb1, if_neg hb2,
        if_neg (fun hh => hdff (List.isEmpty_iff.mp hh))]
      exact ⟨_, _, rfl⟩

/-- C9 witness: a DSM account scoped to districts D1/D2 over a dataset
whose only record is in D3 gets the access-level no-data outcome; an
ADMIN whose selected window contains no rows gets the selection
no-data outcome. -/
theorem c9_no_data_outcomes_witness :
    dashboard [baseRec] ("DSM") (ScopeValue.set ["D1", "D2"]) selsNone true 0 0
      = some Outcome.accessEmpty ∧
    dashboard [baseRec] ("ADMIN") ScopeValue.scNone selsNone true
      (dateA.toDays + 1) (dateA.toDays + 1) = some Outcome.selectionEmpty := by
  constructor
  · exact (c9_no_data_outcomes).1 [baseRec] ("DSM") (ScopeValue.set ["D1", "D2"])
      selsNone true 0 0 (by decide)
  · exact ((c9_no_data_outcomes).2 [baseRec] ("ADMIN") ScopeValue.scNone selsNone
      true (dateA.toDays + 1) (dateA.toDays + 1) (by decide) (by decide)).2.1
      (by decide)

/-- Characters with equal code points are equal. -/
theorem charToNat_inj {a b : Char} (h : a.toNat = b.toNat) : a = b :=
  Char.ext (UInt32.ext h)

/-- `listLe` is reflexive. -/
theorem listLe_refl (l : List Char) : listLe l l = true := by
  induction l with
  | nil => rfl
  | cons a as ih => simp [listLe, ih]

/-- `listLe` is total. -/
theorem listLe_total (a b : List Char) : listLe a b = true ∨ listLe b a = true := by
  induction a generalizing b with
  | nil => exact Or.inl rfl
  | cons x xs ih =>
    cases b with
    | nil => exact Or.inr rfl
    | cons y ys =>
      by_cases hxy : (x == y) = true
      · have hx : x = y := eq_of_beq hxy
        subst hx
        rcases ih ys with h | h
        · exact Or.inl (by simp [listLe, h])
        · exact Or.inr (by simp [listLe, h])
      · have hxyf : (x == y) = false := by
          cases h2 : (x == y)
          · rfl
          · exact absurd h2 hxy
        have hyxf : (y == x) = false := by
          cases h2 : (y == x)
          · rfl
          · exact absurd (by rw [eq_of_beq h2]; exact BEq.refl) hxy
        have hnn : x.toNat ≠ y.toNat :=
          fun hnat => hxy (by rw [charToNat_inj hnat]; exact BEq.refl)
        rcases Nat.lt_or_ge x.toNat y.toNat with h | h
        · exact Or.inl (by simp [listLe, hxyf, h])
        · have h2 : y.toNat < x.toNat := Nat.lt_of_le_of_ne h (fun he => hnn he.symm)
          exact Or.inr (by simp [listLe, hyxf, h2])

/-- `listLe` is transitive. -/
theorem listLe_trans (a b c : List Char) (hab : listLe a b = true)
    (hbc : listLe b c = true) : listLe a c = true := by
  induction a generalizing b c with
  | nil => rfl
  | cons x xs ih =>
    cases b with
    | nil => exact absurd hab (by simp [listLe])
    | cons y ys =>
      cases c with
      | nil => exact absurd hbc (by simp [listLe])
      | cons z zs =>
        by_cases hxy : (x == y) = true
        · have hx : x = y := eq_of_beq hxy
          subst hx
          simp only [listLe, BEq.refl, if_true] at hab
          by_cases hyz : (x == z) = true
          · have hz : x = z := eq_of_beq hyz
            subst hz
            simp only [listLe, BEq.refl, if_true] at hbc ⊢
            exact ih ys zs hab hbc
          · have hyzf : (x == z) = false := by
              cases h2 : (x == z)
              · rfl
              · exact absurd h2 hyz
            simp only [listLe, hyzf, if_false] at hbc ⊢
            exact hbc
        · have hxyf : (x == y) = false := by
            cases h2 : (x == y)
            · rfl
            · exact absurd h2 hxy
          simp only [listLe, hxyf, Bool.false_eq_true, if_false, decide_eq_true_eq] at hab
          by_cases hyz : (y == z) = true
          · have hz : y = z := eq_of_beq hyz
            subst hz
            simp only [listLe, hxyf, Bool.false_eq_true, if_false, decide_eq_true_eq]
            exact hab
          · have hyzf : (y == z) = false := by
              cases h2 : (y == z)
              · rfl
              · exact absurd h2 hyz
            simp only [listLe, hyzf, Bool.false_eq_true, if_false, decide_eq_true_eq] at hbc
            have hxz : x.toNat < z.toNat := Nat.lt_trans hab hbc
            by_cases hxzb : (x == z) = true
            · exact absurd (by rw [eq_of_beq hxzb] at hxz; exact hxz)
                (Nat.lt_irrefl _)
            · have hxzf : (x == z) = false := by
                cases h2 : (x == z)
                · rfl
                · exact absurd h2 hxzb
              simp [listLe, hxzf, hxz]

/-- `listLe` is antisymmetric. -/
theorem listLe_antisym (a b : List Char) (hab : listLe a b = true)
    (hba : listLe b a = true) : a = b := by
  induction a generalizing b with
  | nil =>
    cases b with
    | nil => rfl
    | cons y ys => exact absurd hba (by simp [listLe])
  | cons x xs ih =>
    cases b with
    | nil => exact absurd hab (by simp [listLe])
    | cons y ys =>
      by_cases hxy : (x == y) = true
      · have hx : x = y := eq_of_beq hxy
        subst hx
        simp only [listLe, BEq.refl, if_true] at hab hba
        rw [ih ys hab hba]
      · have hxyf : (x == y) = false := by
          cases h2 : (x == y)
          · rfl
          · exact absurd h2 hxy
        have hyxf : (y == x) = false := by
          cases h2 : (y == x)
          · rfl
          · exact absurd (by rw [eq_of_beq h2]; exact BEq.refl) hxy
        simp only [listLe, hxyf, hyxf, Bool.false_eq_true, if_false, decide_eq_true_eq] at hab hba
        exact absurd (Nat.lt_trans hab hba) (Nat.lt_irrefl _)

/-- `strLe` is reflexive. -/
theorem strLe_refl (a : String) : strLe a a = true := listLe_refl a.data

/-- `strLe` is total. -/
theorem strLe_total (a b : String) : strLe a b = true ∨ strLe b a = true :=
  listLe_total a.data b.data

/-- `strLe` is transitive. -/
theorem strLe_trans (a b c : String) (hab : strLe a b = true)
    (hbc : strLe b c = true) : strLe a c = true :=
  listLe_trans a.data b.data c.data hab hbc

/-- `strLe` is antisymmetric. -/
theorem strLe_antisym (a b : String) (hab : strLe a b = true)
    (hba : strLe b a = true) : a = b :=
  String.ext (listLe_antisym a.data b.data hab hba)

/-- `pairLe` is reflexive. -/
theorem pairLe_refl (a : String × String) : pairLe a a = true := by
  simp [pairLe, strLe_refl]

/-- `pairLe` is total. -/
theorem pairLe_total (a b : String × String) :
    pairLe a b = true ∨ pairLe b a = true := by
  by_cases h1 : (a.1 == b.1) = true
  · have he : a.1 = b.1 := eq_of_beq h1
    have h1s : (b.1 == a.1) = true := by rw [he]; exact BEq.refl
    rcases strLe_total a.2 b.2 with h | h
    · exact Or.inl (by simp [pairLe, h1, h])
    · exact Or.inr (by simp [pairLe, h1s, h])
  · have h1f : (a.1 == b.1) = false := by
      cases h2 : (a.1 == b.1)
      · rfl
      · exact absurd h2 h1
    have h1sf : (b.1 == a.1) = false := by
      cases h2 : (b.1 == a.1)
      · rfl
      · exact absurd (by rw [eq_of_beq h2]; exact BEq.refl) h1
    rcases strLe_total a.1 b.1 with h | h
    · exact Or.inl (by simp [pairLe, h1f, h])
    · exact Or.inr (by simp [pairLe, h1sf, h])

/-- `pairLe` is transitive. -/
theorem pairLe_trans (a b c : String × String) (hab : pairLe a b = true)
    (hbc : pairLe b c = true) : pairLe a c = true := by
  by_cases h1 : (a.1 == b.1) = true
  · have he1 : a.1 = b.1 := eq_of_beq h1
    by_cases h2 : (b.1 == c.1) = true
    · have he2 : b.1 = c.1 := eq_of_beq h2
      have h3 : (a.1 == c.1) = true := by rw [he1, he2]; exact BEq.refl
      simp only [pairLe, h1, h2, h3, if_true] at hab hbc ⊢
      exact strLe_trans _ _ _ hab hbc
    · have h2f : (b.1 == c.1) = false := by
        cases hq : (b.1 == c.1)
        · rfl
        · exact absurd hq h2
      have h3f : (a.1 == c.1) = false := by
        cases hq : (a.1 == c.1)
        · rfl
        · exact absurd (by rw [← he1, eq_of_beq hq]; exact BEq.refl) h2
      simp only [pairLe, h2f, h3f, Bool.false_eq_true, if_false] at hbc ⊢
      rw [he1]
      exact hbc
  · have h1f : (a.1 == b.1) = false := by
      cases hq : (a.1 == b.1)
      · rfl
      · exact absurd hq h1
    by_cases h2 : (b.1 == c.1) = true
    · have he2 : b.1 = c.1 := eq_of_beq h2
      have h3f : (a.1 == c.1) = false := by
        cases hq : (a.1 == c.1)
        · rfl
        · exact absurd (by rw [eq_of_beq hq, ← he2]; exact BEq.refl) h1
      simp only [pairLe, h1f, h3f, Bool.false_eq_true, if_false] at hab ⊢
      rw [← he2]
      exact hab
    · have h2f : (b.1 == c.1) = false := by
        cases hq : (b.1 == c.1)
        · rfl
        · exact absurd hq h2
      simp only [pairLe, h1f, h2f, Bool.false_eq_true, if_false] at hab hbc
      by_cases h3 : (a.1 == c.1) = true
      · have he3 : a.1 = c.1 := eq_of_beq h3
        have : a.1 = b.1 := strLe_antisym _ _ hab (by rw [he3]; exact hbc)
        exact absurd (by rw [this]; exact BEq.refl) h1
      · have h3f : (a.1 == c.1) = false := by
          cases hq : (a.1 == c.1)
          · rfl
          · exact absurd hq h3
        simp only [pairLe, h3f, Bool.false_eq_true, if_false]
        exact strLe_trans _ _ _ hab hbc

/-- Stable insertion permutes. -/
theorem insertBy_perm (le : α → α → Bool) (x : α) (l : List α) :
    (insertBy le x l).Perm (x :: l) := by
  induction l with
  | nil => exact List.Perm.refl _
  | cons y ys ih =>
    simp only [insertBy]
    by_cases h : le x y = true
    · rw [if_pos h]
    · rw [if_neg h]
      exact (ih.cons y).trans (List.Perm.swap x y ys)

/-- Insertion sort permutes. -/
theorem isortBy_perm (le : α → α → Bool) (l : List α) :
    (isortBy le l).Perm l := by
  induction l with
  | nil => exact List.Perm.refl _
  | cons x xs ih => exact (insertBy_perm le x (isortBy le xs)).trans (ih.cons x)

/-- Inserting into a sorted-and-stably-ordered list preserves both the
ordering and any pairwise fact `P` the element enjoys over the list. -/
theorem pairwise_insertBy {le : α → α → Bool} {P : α → α → Prop}
    (htrans : ∀ a b c, le a b = true → le b c = true → le a c = true)
    (htot : ∀ a b, le a b = true ∨ le b a = true)
    {x : α} {l : List α}
    (hl : l.Pairwise (fun a b => le a b = true ∧ (le b a = true → P a b)))
    (hx : ∀ y ∈ l, P x y) :
    (insertBy le x l).Pairwise
      (fun a b => le a b = true ∧ (le b a = true → P a b)) := by
  induction l with
  | nil => exact List.pairwise_singleton _ _
  | cons y ys ih =>
    obtain ⟨hy, hys⟩ := List.pairwise_cons.mp hl
    simp only [insertBy]
    by_cases hxy : le x y = true
    · rw [if_pos hxy]
      refine List.pairwise_cons.mpr ⟨?_, hl⟩
      intro z hz
      rcases List.mem_cons.mp hz with hz1 | hz2
      · subst hz1
        exact ⟨hxy, fun _ => hx z (List.mem_cons_self z ys)⟩
      · exact ⟨htrans x y z hxy (hy z hz2).1,
          fun _ => hx z (List.mem_cons_of_mem y hz2)⟩
    · rw [if_neg hxy]
      have hyx : le y x = true := (htot x y).resolve_left hxy
      refine List.pairwise_cons.mpr
        ⟨?_, ih hys (fun z hz => hx z (List.mem_cons_of_mem y hz))⟩
      intro z hz
      rcases List.mem_cons.mp ((insertBy_perm le x ys).mem_iff.mp hz) with hz1 | hz2
      · subst hz1
        exact ⟨hyx, fun hcon => absurd hcon hxy⟩
      · exact hy z hz2

/-- Insertion sort of a `P`-pairwise list is sorted, and `P` still holds
along every tie (stability). -/
theorem pairwise_isortBy {le : α → α → Bool} {P : α → α → Prop}
    (htrans : ∀ a b c, le a b = true → le b c = true → le a c = true)
    (htot : ∀ a b, le a b = true ∨ le b a = true)
    {l : List α} (hl : l.Pairwise P) :
    (isortBy le l).Pairwise
      (fun a b => le a b = true ∧ (le b a = true → P a b)) := by
  induction l with
  | nil => exact List.Pairwise.nil
  | cons x xs ih =>
    obtain ⟨hx, hxs⟩ := List.pairwise_cons.mp hl
    simp only [isortBy]
    exact pairwise_insertBy htrans htot (ih hxs)
      (fun y hy => hx y ((isortBy_perm le xs).mem_iff.mp hy))

/-- Any list is trivially pairwise related by the constantly-true
relation. -/
theorem pairwise_true (l : List α) : l.Pairwise (fun _ _ => True) := by
  induction l with
  | nil => exact List.Pairwise.nil
  | cons x xs ih => exact List.pairwise_cons.mpr ⟨fun _ _ => trivial, ih⟩

/-- The sorted table is ordered by descending total tonnage.  This holds
for every comparison sort over the (total, transitive) tonnage
comparator, independently of how ties are ordered. -/
theorem sortTable_sorted {K : Type} (t : List (GRow K)) :
    (sortTable t).Pairwise (fun a b => b.totalTonnes ≤ a.totalTonnes) := by
  have le2trans : ∀ a b c : GRow K,
      (decide (b.totalTonnes ≤ a.totalTonnes)) = true →
      (decide (c.totalTonnes ≤ b.totalTonnes)) = true →
      (decide (c.totalTonnes ≤ a.totalTonnes)) = true := by
    intro a b c hab hbc
    exact decide_eq_true (le_trans (of_decide_eq_true hbc) (of_decide_eq_true hab))
  have le2tot : ∀ a b : GRow K,
      (decide (b.totalTonnes ≤ a.totalTonnes)) = true ∨
      (decide (a.totalTonnes ≤ b.totalTonnes)) = true := by
    intro a b
    rcases le_total b.totalTonnes a.totalTonnes with h | h
    · exact Or.inl (decide_eq_true h)
    · exact Or.inr (decide_eq_true h)
  have h := pairwise_isortBy le2trans le2tot (pairwise_true t)
  exact h.imp (fun hab => of_decide_eq_true hab.1)

/-- The sorted table is a permutation of the grouped rows: sorting
drops and duplicates nothing, whatever order ties come out in. -/
theorem sortTable_perm {K : Type} (t : List (GRow K)) :
    (sortTable t).Perm t :=
  isortBy_perm _ t

/-- C7 amended: every grouped performance table (product-, distributor-,
DSM-, ASM-, SO-wise) consists of exactly the grouped rows — a
permutation of the groupby output — sorted in descending order of total
tonnage.  The order among groups of equal total tonnage is left
unspecified by the program (its default sort is not stable), and in
particular is not the original insertion order of the data. -/
theorem c7_tables_tonnage_descending (rows : List Record) :
    ((productWise rows).Pairwise (fun a b => b.totalTonnes ≤ a.totalTonnes) ∧
      (productWise rows).Perm (groupAgg pairLe (fun r => (r.prodCtg, r.updCtg))
        (nuniqueS (fun r => r.bpName)) rows)) ∧
    ((distributorWise rows).Pairwise (fun a b => b.totalTonnes ≤ a.totalTonnes) ∧
      (distributorWise rows).Perm (groupAgg pairLe
        (fun r => (r.bpCode.getD (""), r.bpName)) (nuniqueS (fun r => r.prodCtg))
        (rows.filter (fun r => r.bpCode.isSome)))) ∧
    ((dsmWise rows).Pairwise (fun a b => b.totalTonnes ≤ a.totalTonnes) ∧
      (dsmWise rows).Perm (groupAgg strLe (fun r => r.dsm)
        (nuniqueO (fun r => r.bpCode)) rows)) ∧
    ((asmWise rows).Pairwise (fun a b => b.totalTonnes ≤ a.totalTonnes) ∧
      (asmWise rows).Perm (groupAgg strLe (fun r => r.asm)
        (nuniqueO (fun r => r.bpCode)) rows)) ∧
    ((soWise rows).Pairwise (fun a b => b.totalTonnes ≤ a.totalTonnes) ∧
      (soWise rows).Perm (groupAgg pairLe (fun r => (r.so, r.asm))
        (nuniqueO (fun r => r.bpCode)) rows)) := by
  exact ⟨⟨sortTable_sorted _, sortTable_perm _⟩,
    ⟨sortTable_sorted _, sortTable_perm _⟩,
    ⟨sortTable_sorted _, sortTable_perm _⟩,
    ⟨sortTable_sorted _, sortTable_perm _⟩,
    ⟨sortTable_sorted _, sortTable_perm _⟩⟩

/-- C7 counterexample: over `dfTie` — district B first in the data,
district A second, equal tonnage — the DSM-wise table lists A before B,
because `groupby` has already re-sorted the group keys ascending before
the tonnage sort runs; the original insertion order among equal-tonnage
groups is not preserved, refuting the stable-insertion-order
tie-breaking claim.  (On this two-element input the model's output also
coincides with the library's actual behavior, which degenerates to an
insertion sort below the introsort cutoff.) -/
theorem c7_insertion_order_counterexample :
    ((dsmWise dfTie).map (fun g => g.key) = ["A", "B"]) ∧
    (dfTie.map (fun r => r.dsm) = ["B", "A"]) ∧
    ((dsmWise dfTie).map (fun g => g.totalTonnes) = [1, 1]) := by
  have hkeys : isortBy strLe ((dfTie.map (fun r => r.dsm)).dedup) = ["A", "B"] := by
    decide
  have hga : groupAgg strLe (fun r => r.dsm) (nuniqueO (fun r => r.bpCode)) dfTie
      = [gTieA, gTieB] := by
    unfold groupAgg
    rw [hkeys]
    rfl
  have htA : gTieA.totalTonnes = 1000 / 1000 := by
    have hfA : dfTie.filter (fun r => decide (r.dsm = "A")) = [recTieA] := by decide
    simp [gTieA, aggFor, hfA, qsum, recTieA, baseRec]
  have htB : gTieB.totalTonnes = 1000 / 1000 := by
    have hfB : dfTie.filter (fun r => decide (r.dsm = "B")) = [recTieB] := by decide
    simp [gTieB, aggFor, hfB, qsum, recTieB, baseRec]
  have hle : (decide (gTieB.totalTonnes ≤ gTieA.totalTonnes)) = true := by
    rw [htA, htB]
    exact decide_eq_true (le_refl _)
  have hsort : dsmWise dfTie = [gTieA, gTieB] := by
    unfold dsmWise sortTable
    rw [hga]
    simp [isortBy, insertBy, hle]
  refine ⟨?_, by decide, ?_⟩
  · rw [hsort]
    rfl
  · rw [hsort]
    simp only [List.map_cons, List.map_nil, htA, htB]
    norm_num

/-- C10: the "Unknown" repair applies only to the fixed `keyCols` list,
which contains neither `BP Code` nor `InvNum`; normalization passes
those two columns through unchanged, so a record can keep a null BP
Code; the distributor-wise grouping (keyed on BP Code and BP Name)
silently drops such records, so its per-group value totals can sum to
strictly less than the ungrouped summary total of the same filtered
set. -/
theorem c10_bpcode_not_repaired :
    (keyCols.contains ("BP Code") = false ∧ keyCols.contains ("InvNum") = false) ∧
    (∀ (w : RawRow) (r : Record), normalizeRow w = some r →
      r.bpCode = w.bpCode ∧ r.invNum = w.invNum) ∧
    (∃ r ∈ dfC10, r.bpCode = none) ∧
    ((distributorWise dfC10).map (fun g => g.totalValue)).sum
      < (summaryMetrics dfC10).totalValue := by
  refine ⟨by decide, ?_, ⟨recNoCode, by decide, rfl⟩, ?_⟩
  · intro w r h
    unfold normalizeRow at h
    revert h
    cases parseDate w.invDate with
    | none => intro h; exact absurd h (by simp)
    | some dt =>
      intro h
      have hr := (Option.some.injEq _ _).mp h
      rw [← hr]
      exact ⟨rfl, rfl⟩
  · have hkeys : isortBy pairLe
        (((dfC10.filter (fun r => r.bpCode.isSome)).map
          (fun r => (r.bpCode.getD (""), r.bpName))).dedup)
        = [(("BC1" : String), ("BPN1" : String))] := by decide
    have hdw : distributorWise dfC10
        = [aggFor (fun r => (r.bpCode.getD (""), r.bpName))
            (nuniqueS (fun r => r.prodCtg))
            (dfC10.filter (fun r => r.bpCode.isSome))
            ((("BC1" : String), ("BPN1" : String)))] := by
      unfold distributorWise sortTable groupAgg
      rw [hkeys]
      rfl
    have hflt : (dfC10.filter (fun r => r.bpCode.isSome)).filter
        (fun r => decide ((r.bpCode.getD (""), r.bpName)
          = (("BC1" : String), ("BPN1" : String)))) = [baseRec] := by decide
    rw [hdw]
    simp only [List.map_cons, List.map_nil, List.sum_cons, List.sum_nil,
      aggFor, hflt, summaryMetrics]
    simp [vsum, dfC10, baseRec, recNoCode]

/-- C10 witness: a raw row with a null BP Code and a parseable date
normalizes to a record that still has a null BP Code and null InvNum. -/
theorem c10_bpcode_not_repaired_witness :
    recGood.bpCode = rawGood.bpCode ∧ recGood.invNum = rawGood.invNum :=
  (c10_bpcode_not_repaired).2.1 rawGood recGood (by decide)

end LiveDashboard
